import Mathlib

/-!
# Verification of the Yachani document-library core

A shallow embedding of the original logic of the repository:
the `DocumentManager` registry (`src/utils/document_manager.py`) and the
agent-configuration resolution (`src/pages/2_🤖_agents.py`).

Modelling conventions:
* Python JSON-ish values are the inductive `Val` (strings, integers, lists);
  Python `dict`s are association lists with insert-in-place-or-append
  update semantics, which reproduces Python dict insertion order.
* File I/O is modelled by an explicit file component in the state; a write
  that the interpreter would fail is modelled by a Boolean flag: on `false`
  the file is left unchanged (the Python code catches the exception inside
  `_save_metadata` / `_save_categories` and only prints it).
* `hashlib.sha256(...).hexdigest()` is implemented bit-for-bit over the
  UTF-8 bytes of the formatted string (32-bit words are `Nat` reduced
  `% 2 ^ 32`).
* `datetime.now()` is an explicit `now : String` parameter.
-/

set_option maxRecDepth 4000

namespace Yachani

/-- Python values as they occur in the JSON stores: strings, ints and lists. -/
inductive Val where
  | vStr : String → Val
  | vInt : Int → Val
  | vList : List Val → Val
deriving Repr

mutual

/-- Boolean equality of values, structural (Python `==` on JSON data). -/
def Val.beq : Val → Val → Bool
  | .vStr a, .vStr b => a == b
  | .vInt a, .vInt b => a == b
  | .vList a, .vList b => Val.beqList a b
  | _, _ => false

/-- Boolean equality of value lists. -/
def Val.beqList : List Val → List Val → Bool
  | [], [] => true
  | a :: as, b :: bs => Val.beq a b && Val.beqList as bs
  | _, _ => false

end

mutual

theorem Val.beq_iff : ∀ a b : Val, Val.beq a b = true ↔ a = b
  | .vStr a, .vStr b => by simp [Val.beq]
  | .vStr _, .vInt _ => by simp [Val.beq]
  | .vStr _, .vList _ => by simp [Val.beq]
  | .vInt _, .vStr _ => by simp [Val.beq]
  | .vInt a, .vInt b => by simp [Val.beq]
  | .vInt _, .vList _ => by simp [Val.beq]
  | .vList _, .vStr _ => by simp [Val.beq]
  | .vList _, .vInt _ => by simp [Val.beq]
  | .vList a, .vList b => by
      simp only [Val.beq, Val.vList.injEq]
      exact Val.beqList_iff a b

theorem Val.beqList_iff : ∀ a b : List Val, Val.beqList a b = true ↔ a = b
  | [], [] => by simp [Val.beqList]
  | [], _ :: _ => by simp [Val.beqList]
  | _ :: _, [] => by simp [Val.beqList]
  | a :: as, b :: bs => by
      simp only [Val.beqList, Bool.and_eq_true, List.cons.injEq]
      exact and_congr (Val.beq_iff a b) (Val.beqList_iff as bs)

end

instance : DecidableEq Val := fun a b =>
  decidable_of_iff (Val.beq a b = true) (Val.beq_iff a b)

mutual

/-- Python `repr` of a value (string elements of a list are rendered quoted;
internal quote escaping is not modelled, no claim depends on it). -/
def pyRepr : Val → String
  | .vStr s => String.singleton (Char.ofNat 39) ++ s ++ String.singleton (Char.ofNat 39)
  | .vInt n => toString n
  | .vList l => "[" ++ String.intercalate ", " (pyReprList l) ++ "]"

/-- Python repr of each element of a value list. -/
def pyReprList : List Val → List String
  | [] => []
  | v :: vs => pyRepr v :: pyReprList vs

end

/-- Python `str` of a value, as used by f-string interpolation and `str(value)`. -/
def pyStr : Val → String
  | .vStr s => s
  | .vInt n => toString n
  | .vList l => pyRepr (.vList l)

/-- Python truthiness of a value (`if doc:`, `if query:`). -/
def pyTruthy : Val → Bool
  | .vStr s => !(s == "")
  | .vInt n => !(n == 0)
  | .vList l => !l.isEmpty

/-- Lookup in an association list, first binding wins (Python dict `get` /
`[]`: keys are unique, so first = only). -/
def lookupA {κ α : Type} [DecidableEq κ] : List (κ × α) → κ → Option α
  | [], _ => none
  | (k, v) :: rest, k0 => if k = k0 then some v else lookupA rest k0

/-- Python dict assignment `d[k] = v`: replaces the value in place if the key
is present, otherwise appends the new binding (dicts keep insertion order). -/
def insertA {κ α : Type} [DecidableEq κ] : List (κ × α) → κ → α → List (κ × α)
  | [], k0, v0 => [(k0, v0)]
  | (k, v) :: rest, k0, v0 =>
      if k = k0 then (k0, v0) :: rest else (k, v) :: insertA rest k0 v0

theorem lookupA_insertA_self {κ α : Type} [DecidableEq κ]
    (l : List (κ × α)) (k : κ) (v : α) : lookupA (insertA l k v) k = some v := by
  induction l with
  | nil => simp [insertA, lookupA]
  | cons p rest ih =>
      obtain ⟨k1, v1⟩ := p
      by_cases h : k1 = k
      · subst h; simp [insertA, lookupA]
      · simp [insertA, lookupA, h, ih]

theorem lookupA_insertA_ne {κ α : Type} [DecidableEq κ]
    (l : List (κ × α)) (k k0 : κ) (v : α) (h : k ≠ k0) :
    lookupA (insertA l k v) k0 = lookupA l k0 := by
  induction l with
  | nil => simp [insertA, lookupA, h]
  | cons p rest ih =>
      obtain ⟨k1, v1⟩ := p
      by_cases h1 : k1 = k
      · subst h1; simp [insertA, lookupA, h]
      · simp [insertA, lookupA, h1, ih]

theorem lookupA_insertA {κ α : Type} [DecidableEq κ]
    (l : List (κ × α)) (k k0 : κ) (v : α) :
    lookupA (insertA l k v) k0 = if k = k0 then some v else lookupA l k0 := by
  by_cases h : k = k0
  · subst h; simp [lookupA_insertA_self]
  · simp [h, lookupA_insertA_ne l k k0 v h]

/-! ## SHA-256 (`hashlib.sha256(...).hexdigest()`)

A direct implementation of FIPS 180-4 over byte lists; 32-bit words are
`Nat` values kept below `2 ^ 32`. -/

/-- Truncate to a 32-bit word. -/
def w32 (x : Nat) : Nat := x % 4294967296

/-- Rotate a 32-bit word right by `n` bits. -/
def rotr32 (n x : Nat) : Nat := x / 2 ^ n + x % 2 ^ n * 2 ^ (32 - n)

/-- SHA-256 `Ch` function. -/
def shaCh (x y z : Nat) : Nat := (x &&& y) ^^^ ((x ^^^ 4294967295) &&& z)

/-- SHA-256 `Maj` function. -/
def shaMaj (x y z : Nat) : Nat := (x &&& y) ^^^ (x &&& z) ^^^ (y &&& z)

/-- SHA-256 `Σ₀`. -/
def bSig0 (x : Nat) : Nat := rotr32 2 x ^^^ rotr32 13 x ^^^ rotr32 22 x

/-- SHA-256 `Σ₁`. -/
def bSig1 (x : Nat) : Nat := rotr32 6 x ^^^ rotr32 11 x ^^^ rotr32 25 x

/-- SHA-256 `σ₀`. -/
def sSig0 (x : Nat) : Nat := rotr32 7 x ^^^ rotr32 18 x ^^^ x / 2 ^ 3

/-- SHA-256 `σ₁`. -/
def sSig1 (x : Nat) : Nat := rotr32 17 x ^^^ rotr32 19 x ^^^ x / 2 ^ 10

/-- The 64 SHA-256 round constants (FIPS 180-4 §4.2.2, here in decimal). -/
def sha256K : List Nat :=
  [1116352408, 1899447441, 3049323471, 3921009573, 961987163,
   1508970993, 2453635748, 2870763221, 3624381080, 310598401,
   607225278, 1426881987, 1925078388, 2162078206, 2614888103,
   3248222580, 3835390401, 4022224774, 264347078, 604807628,
   770255983, 1249150122, 1555081692, 1996064986, 2554220882,
   2821834349, 2952996808, 3210313671, 3336571891, 3584528711,
   113926993, 338241895, 666307205, 773529912, 1294757372,
   1396182291, 1695183700, 1986661051, 2177026350, 2456956037,
   2730485921, 2820302411, 3259730800, 3345764771, 3516065817,
   3600352804, 4094571909, 275423344, 430227734, 506948616,
   659060556, 883997877, 958139571, 1322822218, 1537002063,
   1747873779, 1955562222, 2024104815, 2227730452, 2361852424,
   2428436474, 2756734187, 3204031479, 3329325298]

/-- The SHA-256 initial hash value (FIPS 180-4 §5.3.3, here in decimal). -/
def sha256H0 : List Nat :=
  [1779033703, 3144134277, 1013904242, 2773480762,
   1359893119, 2600822924, 528734635, 1541459225]

/-- Big-endian 32-bit words from a byte list. -/
def bytesToWords : List Nat → List Nat
  | b0 :: b1 :: b2 :: b3 :: rest => (((b0 * 256 + b1) * 256 + b2) * 256 + b3) :: bytesToWords rest
  | _ => []

/-- Extend the 16-word message schedule by `fuel` further words. -/
def extendSched (w : List Nat) : Nat → List Nat
  | 0 => w
  | fuel + 1 =>
      let n := w.length
      let wt := w32 (sSig1 (w.getD (n - 2) 0) + w.getD (n - 7) 0 +
        sSig0 (w.getD (n - 15) 0) + w.getD (n - 16) 0)
      extendSched (w ++ [wt]) fuel

/-- One SHA-256 round: state `(a,b,c,d,e,f,g,h)` with constant `k` and word `wv`. -/
def sha256Round (st : Nat × Nat × Nat × Nat × Nat × Nat × Nat × Nat) (kw : Nat × Nat) :
    Nat × Nat × Nat × Nat × Nat × Nat × Nat × Nat :=
  match st, kw with
  | (a, b, c, d, e, f, g, h), (k, wv) =>
      let t1 := w32 (h + bSig1 e + shaCh e f g + k + wv)
      let t2 := w32 (bSig0 a + shaMaj a b c)
      (w32 (t1 + t2), a, b, c, w32 (d + t1), e, f, g)

/-- Compress one 64-byte block into the running hash value. -/
def sha256Block (H : List Nat) (block : List Nat) : List Nat :=
  let w := extendSched (bytesToWords block) 48
  let init := (H.getD 0 0, H.getD 1 0, H.getD 2 0, H.getD 3 0,
               H.getD 4 0, H.getD 5 0, H.getD 6 0, H.getD 7 0)
  match (sha256K.zip w).foldl sha256Round init with
  | (a, b, c, d, e, f, g, h) =>
      [w32 (H.getD 0 0 + a), w32 (H.getD 1 0 + b), w32 (H.getD 2 0 + c),
       w32 (H.getD 3 0 + d), w32 (H.getD 4 0 + e), w32 (H.getD 5 0 + f),
       w32 (H.getD 6 0 + g), w32 (H.getD 7 0 + h)]

/-- Big-endian 8-byte encoding of a length in bits. -/
def beBytes8 (n : Nat) : List Nat :=
  [n / 2 ^ 56 % 256, n / 2 ^ 48 % 256, n / 2 ^ 40 % 256, n / 2 ^ 32 % 256,
   n / 2 ^ 24 % 256, n / 2 ^ 16 % 256, n / 2 ^ 8 % 256, n % 256]

/-- SHA-256 padding: `0x80`, zeros to 56 mod 64, then the 64-bit bit length. -/
def sha256pad (msg : List Nat) : List Nat :=
  let padZeros := (119 - msg.length % 64) % 64
  msg ++ 128 :: List.replicate padZeros 0 ++ beBytes8 (msg.length * 8)

/-- Split a byte list into 64-byte blocks (fuel-driven structural recursion;
`fuel = l.length` always suffices since each step consumes 64 > 0 bytes). -/
def chunks64Aux : Nat → List Nat → List (List Nat)
  | 0, _ => []
  | _, [] => []
  | fuel + 1, x :: rest => (x :: rest).take 64 :: chunks64Aux fuel ((x :: rest).drop 64)

/-- Split a byte list into 64-byte blocks. -/
def chunks64 (l : List Nat) : List (List Nat) := chunks64Aux l.length l

/-- Big-endian bytes of a 32-bit word. -/
def wordBE (w : Nat) : List Nat := [w / 2 ^ 24 % 256, w / 2 ^ 16 % 256, w / 2 ^ 8 % 256, w % 256]

/-- SHA-256 digest (32 bytes) of a byte list. -/
def sha256 (msg : List Nat) : List Nat :=
  let H := (chunks64 (sha256pad msg)).foldl sha256Block sha256H0
  H.foldr (fun w acc => wordBE w ++ acc) []

/-- Lowercase hexadecimal digit. -/
def hexChar (n : Nat) : Char := if n < 10 then Char.ofNat (48 + n) else Char.ofNat (87 + n)

/-- Lowercase hexadecimal rendering of a byte list (`.hexdigest()`). -/
def toHex (bs : List Nat) : String :=
  String.mk (bs.foldr (fun b acc => hexChar (b / 16) :: hexChar (b % 16) :: acc) [])

/-- UTF-8 bytes of one character. -/
def utf8Char (c : Char) : List Nat :=
  let n := c.toNat
  if n < 128 then [n]
  else if n < 2048 then [192 + n / 64, 128 + n % 64]
  else if n < 65536 then [224 + n / 4096, 128 + n / 64 % 64, 128 + n % 64]
  else [240 + n / 262144, 128 + n / 4096 % 64, 128 + n / 64 % 64, 128 + n % 64]

/-- UTF-8 encoding of a string (`str.encode()`). -/
def utf8Bytes (s : String) : List Nat :=
  s.data.foldr (fun c acc => utf8Char c ++ acc) []

/-- The string that `add_document` hashes:
the f-string of title, author and year joined by underscores. -/
def hashedPreimage (t a y : Val) : String :=
  pyStr t ++ "_" ++ pyStr a ++ "_" ++ pyStr y

/-- The document id computed inside `add_document`:
`hashlib.sha256(f"{title}_{author}_{year}".encode()).hexdigest()`. -/
def docHash (t a y : Val) : String :=
  toHex (sha256 (utf8Bytes (hashedPreimage t a y)))

/-- Sanity check of the SHA-256 implementation against the FIPS 180-4
test vector for the message `"abc"`. -/
theorem sha256_abc :
    toHex (sha256 (utf8Bytes "abc")) =
      "ba7816bf8f01cfea414140de5dae2223b00361a396177a9cb410ff61f20015ad" := by
  decide

/-! ## The `DocumentManager` state (`src/utils/document_manager.py`) -/

/-- A Python dict with string keys, e.g. one document metadata record. -/
abbrev Dict := List (String × Val)

/-- Python `dict.get(k)` (also `d[k]`, whose absence raises `KeyError`). -/
def dictGet (d : Dict) (k : String) : Option Val := lookupA d k

/-- Python dict assignment `d[k] = v`. -/
def dictSet (d : Dict) (k : String) (v : Val) : Dict := insertA d k v

/-- The content of `categories.json`: the category→subcategory tree plus the
per-category usage counters (counter keys are the raw Python values used as
dict keys in `add_document`). -/
structure Categories where
  categories : List (String × List String)
  category_counts : List (Val × Int)
deriving DecidableEq, Repr

/-- The hardcoded default taxonomy in `_load_categories`. -/
def defaultCategories : Categories where
  categories :=
    [("Matemáticas", ["Álgebra", "Cálculo", "Geometría", "Estadística"]),
     ("Ciencias", ["Física", "Química", "Biología", "Astronomía"]),
     ("Programación", ["Python", "JavaScript", "Java", "Web Development"]),
     ("Idiomas", ["Inglés", "Español", "Francés", "Alemán"]),
     ("Historia", ["Historia Mundial", "Historia del Arte", "Arqueología"]),
     ("Literatura", ["Narrativa", "Poesía", "Teatro", "Ensayo"])]
  category_counts := []

/-- One on-disk JSON file: missing, unparseable, or holding a value. -/
inductive JFile (α : Type) where
  | absent : JFile α
  | malformed : JFile α
  | valid : α → JFile α
deriving DecidableEq, Repr

/-- The in-memory registry plus the two backing JSON files.  `metadata` is the
`metadata.json` mapping of document id to record, in insertion order. -/
structure DMState where
  metadata : List (String × Dict)
  categories : Categories
  metadataFile : JFile (List (String × Dict))
  categoriesFile : JFile Categories
deriving DecidableEq, Repr

/-- Model of `_save_metadata`: overwrites `metadata.json` with the whole mapping; any
exception is caught and printed, never raised (`ok = false` models a failed
write, which leaves the file as it was). -/
def saveMetadata (ok : Bool) (st : DMState) : DMState :=
  if ok then { st with metadataFile := .valid st.metadata } else st

/-- Model of `_save_categories`: same policy for `categories.json`. -/
def saveCategories (ok : Bool) (st : DMState) : DMState :=
  if ok then { st with categoriesFile := .valid st.categories } else st

/-- Model of `_load_metadata`: returns the parsed file if it exists and parses;
otherwise (missing file, malformed JSON, or any read error) writes and
returns a fresh empty mapping.  `wOk` models whether that recovery write
itself succeeds (its failure is also swallowed). -/
def loadMetadata (wOk : Bool) (f : JFile (List (String × Dict))) :
    List (String × Dict) × JFile (List (String × Dict)) :=
  match f with
  | .valid content => (content, f)
  | _ => ([], if wOk then .valid [] else f)

/-- Model of `_load_categories`: returns the parsed file if it exists and parses;
otherwise writes and returns the hardcoded default taxonomy. -/
def loadCategories (wOk : Bool) (f : JFile Categories) :
    Categories × JFile Categories :=
  match f with
  | .valid content => (content, f)
  | _ => (defaultCategories, if wOk then .valid defaultCategories else f)

/-- Model of `get_document`: pure lookup of a record by its id. -/
def getDocument (st : DMState) (docHash : String) : Option Dict :=
  lookupA st.metadata docHash

/-- Model of `add_document`.  The result pairs the post-call object state (Python
keeps `self` mutations made before an exception) with either the returned
id or the raised `Exception` message.  `mOk`/`cOk` model whether the two
file writes succeed; their failure is invisible here because
`_save_metadata`/`_save_categories` swallow it. -/
def addDocument (mOk cOk : Bool) (metadata : Dict) (vectorstorePath originalPath now : String)
    (st : DMState) : DMState × Except String String :=
  match dictGet metadata "title", dictGet metadata "author", dictGet metadata "year" with
  | some t, some a, some y =>
      let h := docHash t a y
      let full := dictSet (dictSet (dictSet (dictSet metadata "hash" (.vStr h))
        "vectorstore_path" (.vStr vectorstorePath)) "original_path" (.vStr originalPath))
        "processed_date" (.vStr now)
      let st1 := saveMetadata mOk { st with metadata := insertA st.metadata h full }
      match dictGet metadata "category" with
      | some cat =>
          let oldCount := (lookupA st1.categories.category_counts cat).getD 0
          let st2 := { st1 with categories := { st1.categories with
            category_counts := insertA st1.categories.category_counts cat (oldCount + 1) } }
          (saveCategories cOk st2, .ok h)
      | none => (st1, .error "Error adding document: KeyError category")
  | _, _, _ => (st, .error "Error adding document: KeyError")

/-- Model of `get_popular_categories`: the counter table sorted by count descending
(Python `sorted(..., reverse=True)` is a stable sort, modelled by
`mergeSort`, which is stable for the reflexive order used here), truncated
to the first 8 entries.  The Python result is a dict built from these
pairs; since the keys are unique its insertion order is this list. -/
def getPopularCategories (st : DMState) : List (Val × Int) :=
  ((st.categories.category_counts).mergeSort (fun p q => q.2 ≤ p.2)).take 8

/-! ## `search_documents` -/

/-- A value of the `filters` dict passed to `search_documents` (the catalog
page passes strings, `None` for an unused language filter, and the
year-range pair from the slider). -/
inductive FilterVal where
  | fStr : String → FilterVal
  | fNone : FilterVal
  | fRange : Int → Int → FilterVal
deriving DecidableEq, Repr

/-- Python truthiness of a filter value (`if value`): `None` and the empty
string are falsy, a pair is truthy. -/
def filterTruthy : FilterVal → Bool
  | .fStr s => !(s == "")
  | .fNone => false
  | .fRange _ _ => true

/-- The check `value != "Todas" and value != "Todos"` fails exactly on these strings. -/
def isSentinel : FilterVal → Bool
  | .fStr s => s == "Todas" || s == "Todos"
  | _ => false

/-- Strip Python-strippable whitespace from both ends. -/
def stripWs (cs : List Char) : List Char :=
  let ws := fun c => c == ' ' || c == '\t' || c == '\n' || c == '\r'
  ((cs.dropWhile ws).reverse.dropWhile ws).reverse

/-- Digits with optional single underscores strictly between digits
(the tail of Python int-literal syntax, after the first digit). -/
def vdAux : List Char → Bool
  | [] => true
  | c :: rest =>
      if c.isDigit then vdAux rest
      else if c == '_' then
        match rest with
        | c2 :: rest2 => c2.isDigit && vdAux (c2 :: rest2)
        | [] => false
      else false

/-- A valid Python decimal digit run: nonempty, starts with a digit,
underscores only between digits. -/
def validDigits : List Char → Bool
  | [] => false
  | c :: rest => c.isDigit && vdAux rest

/-- Numeric value of a digit run, skipping underscores. -/
def digitsValue (cs : List Char) : Nat :=
  cs.foldl (fun acc c => if c == '_' then acc else acc * 10 + (c.toNat - 48)) 0

/-- Python `int(s)` on a string: optional surrounding whitespace, optional
sign, then decimal digits; raises `ValueError` otherwise. -/
def pyIntOfStr (s : String) : Except String Int :=
  match stripWs s.data with
  | '+' :: rest =>
      if validDigits rest then .ok (digitsValue rest) else .error "ValueError"
  | '-' :: rest =>
      if validDigits rest then .ok (-(digitsValue rest : Int)) else .error "ValueError"
  | cs => if validDigits cs then .ok (digitsValue cs) else .error "ValueError"

/-- Python `int(v)` on a stored value: ints pass through, strings are
parsed, lists raise `TypeError`. -/
def pyToInt : Val → Except String Int
  | .vInt n => .ok n
  | .vStr s => pyIntOfStr s
  | .vList _ => .error "TypeError"

/-- The `year_range` list comprehension:
`[doc for doc in results if value[0] <= int(doc.get("year", 0)) <= value[1]]`.
`int(...)` is evaluated for every record, so one unparseable year aborts
the whole search call. -/
def applyYearRange (a b : Int) : List Dict → Except String (List Dict)
  | [] => .ok []
  | d :: rest => do
      let n ← pyToInt ((dictGet d "year").getD (.vInt 0))
      let tail ← applyYearRange a b rest
      pure (if a ≤ n ∧ n ≤ b then d :: tail else tail)

/-- The comparison `doc.get(key) == value` for a non-`year_range` filter: a missing key
yields `None`, which equals no filter value; only equal strings match. -/
def filterEq (dv : Option Val) (fv : FilterVal) : Bool :=
  match dv, fv with
  | some (.vStr s), .fStr t => s == t
  | _, _ => false

/-- One pass of the `for key, value in filters.items()` loop body. -/
def applyOneFilter (key : String) (v : FilterVal) (docs : List Dict) :
    Except String (List Dict) :=
  if filterTruthy v && !isSentinel v then
    if key == "year_range" then
      match v with
      | .fRange a b => applyYearRange a b docs
      | _ =>
          -- e.g. a truthy string: `value[0] <= int(...)` compares str to int,
          -- a `TypeError` raised once per record, so only nonempty inputs raise
          match docs with
          | [] => .ok []
          | _ => .error "TypeError"
    else
      .ok (docs.filter (fun d => filterEq (dictGet d key) v))
  else
    .ok docs

/-- The whole filters loop, in dict order. -/
def applyFilters : List (String × FilterVal) → List Dict → Except String (List Dict)
  | [], docs => .ok docs
  | (k, v) :: rest, docs => do
      let docs1 ← applyOneFilter k v docs
      applyFilters rest docs1

/-- The field values the free-text query is matched against:
`[doc.get("title",...), doc.get("description",...), doc.get("author",...), *doc.get("tags",[])]`.
Spreading a string iterates its characters; spreading an int raises. -/
def searchFields (d : Dict) : Except String (List Val) :=
  let base := [(dictGet d "title").getD (.vStr ""), (dictGet d "description").getD (.vStr ""),
    (dictGet d "author").getD (.vStr "")]
  match (dictGet d "tags").getD (.vList []) with
  | .vList l => .ok (base ++ l)
  | .vStr s => .ok (base ++ s.data.map (fun c => .vStr (String.singleton c)))
  | .vInt _ => .error "TypeError"

/-- Python `needle in haystack` on strings: contiguous substring. -/
def strIn (needle haystack : String) : Bool := decide (needle.data <:+: haystack.data)

/-- The test `any(query in str(value).lower() for value in [...])` for one record;
`q` is the already-lowercased query. -/
def docMatches (q : String) (d : Dict) : Except String Bool := do
  let fields ← searchFields d
  pure (fields.any (fun v => strIn q (pyStr v).toLower))

/-- The query list comprehension over the filtered records. -/
def applyQuery (q : String) : List Dict → Except String (List Dict)
  | [] => .ok []
  | d :: rest => do
      let b ← docMatches q d
      let tail ← applyQuery q rest
      pure (if b then d :: tail else tail)

/-- Model of `search_documents(query, filters)`: the registry values in insertion
order, narrowed by each truthy non-sentinel filter, then by the
case-insensitive free-text query; a raised `ValueError`/`TypeError`
propagates to the caller as an error. -/
def searchDocuments (query : Option String) (filters : Option (List (String × FilterVal)))
    (st : DMState) : Except String (List Dict) := do
  let docs := st.metadata.map (fun p => p.2)
  let docs ←
    match filters with
    | none => pure docs
    | some fs => applyFilters fs docs
  match query with
  | none => pure docs
  | some q => if q == "" then pure docs else applyQuery q.toLower docs

/-- Model of `get_documents_by_category`:
`[doc for doc in metadata.values() if doc.get("category") == category]`
(a record without the key yields `None`, which equals no category value). -/
def getDocumentsByCategory (st : DMState) (category : Val) : List Dict :=
  (st.metadata.map (fun p => p.2)).filter (fun d =>
    match dictGet d "category" with
    | some v => decide (v = category)
    | none => false)

/-! ## Agent resolution (`src/pages/2_🤖_agents.py`) -/

/-- One entry of the `docs` list of a saved agent: `{"title": ..., "hash": ...}`. -/
structure DocRef where
  title : String
  hash : String
deriving DecidableEq, Repr

/-- A saved agent configuration as written by `save_agent` into
`saved_agents.json`.  `temperature` is only stored, never computed with, so
its float value is modelled as a rational. -/
structure Agent where
  name : String
  role : String
  style : String
  detail_level : String
  temperature : ℚ
  max_tokens : Int
  context_window : Int
  docs : List DocRef
  created_at : String
deriving DecidableEq, Repr

/-- Model of `os.path.exists`; the empty string (the `doc.get` default) never names an
existing path.  The backing store is the list of existing directories. -/
def pathExists (disk : List String) (p : String) : Bool :=
  !(p == "") && disk.contains p

/-- One resolved vectorstore entry built in `load_agent_config`: the Chroma
handle and its retriever are determined by the persist directory and the
`k = context_window` search parameter, which is what the model records. -/
structure VSEntry where
  hash : Val
  title : Val
  persistDir : String
  k : Int
deriving DecidableEq, Repr

/-- The `for doc_info in saved_agent["docs"]` resolution loop: a reference
whose record is missing (or falsy) or whose stored index path does not exist
is skipped; surviving references are turned into vectorstore entries.  A
`KeyError`/`TypeError` inside the loop is modelled as `.error` (the page
catches it and returns `None`). -/
def resolveDocs (dm : DMState) (disk : List String) (k : Int) :
    List DocRef → Except String (List VSEntry)
  | [] => .ok []
  | ref :: rest =>
      match getDocument dm ref.hash with
      | none => resolveDocs dm disk k rest
      | some d =>
          if d.isEmpty then resolveDocs dm disk k rest
          else
            match (dictGet d "vectorstore_path").getD (.vStr "") with
            | .vStr p =>
                if pathExists disk p then
                  match dictGet d "hash", dictGet d "title" with
                  | some hv, some tv => do
                      let tail ← resolveDocs dm disk k rest
                      pure ({ hash := hv, title := tv, persistDir := p, k := k } :: tail)
                  | _, _ => .error "KeyError"
                else resolveDocs dm disk k rest
            | .vInt _ => resolveDocs dm disk k rest
            | .vList _ => .error "TypeError"

/-- The result of `load_agent_config`: the stored fields plus the resolved
`vectorstores` list. -/
structure ResolvedConfig where
  agent : Agent
  vectorstores : List VSEntry
deriving DecidableEq, Repr

/-- Model of `load_agent_config(agent_id, doc_manager)`: `None` for an unknown id or
on an exception, otherwise the stored config with the resolved entries. -/
def loadAgentConfig (agents : List (String × Agent)) (agentId : String)
    (dm : DMState) (disk : List String) : Option ResolvedConfig :=
  match lookupA agents agentId with
  | none => none
  | some a =>
      match resolveDocs dm disk a.context_window a.docs with
      | .ok vs => some { agent := a, vectorstores := vs }
      | .error _ => none

/-- A stored reference that `load_agent_config` skips: its record is absent
from the registry, or falsy (an empty dict), or its stored index path does
not exist on the backing store (a missing path field defaults to the empty
string, which never exists; an `int` path is an unopened fd, for which
`os.path.exists` returns `False`). -/
def refSkipped (dm : DMState) (disk : List String) (ref : DocRef) : Bool :=
  match getDocument dm ref.hash with
  | none => true
  | some d =>
      d.isEmpty ||
      (match (dictGet d "vectorstore_path").getD (.vStr "") with
       | .vStr p => !pathExists disk p
       | .vInt _ => true
       | .vList _ => false)

/-! ## Helper lemmas about `add_document` -/

/-- The stored record: the draft plus the four system fields, in the order
`add_document` writes them. -/
def fullRecord (d : Dict) (h vectorstorePath originalPath now : String) : Dict :=
  dictSet (dictSet (dictSet (dictSet d "hash" (.vStr h))
    "vectorstore_path" (.vStr vectorstorePath)) "original_path" (.vStr originalPath))
    "processed_date" (.vStr now)

/-- The post-state of a fully applied `add_document` call, spelled out. -/
def addedState (mOk cOk : Bool) (d : Dict) (vp op now : String) (st : DMState)
    (t a y c : Val) : DMState :=
  let h := docHash t a y
  let newMeta := insertA st.metadata h (fullRecord d h vp op now)
  let newCounts := insertA st.categories.category_counts c
    ((lookupA st.categories.category_counts c).getD 0 + 1)
  { metadata := newMeta
    categories := { categories := st.categories.categories, category_counts := newCounts }
    metadataFile := if mOk then .valid newMeta else st.metadataFile
    categoriesFile := if cOk then
        .valid { categories := st.categories.categories, category_counts := newCounts }
      else st.categoriesFile }

theorem addDocument_ok (mOk cOk : Bool) (d : Dict) (vp op now : String) (st : DMState)
    (t a y c : Val)
    (ht : dictGet d "title" = some t) (ha : dictGet d "author" = some a)
    (hy : dictGet d "year" = some y) (hc : dictGet d "category" = some c) :
    addDocument mOk cOk d vp op now st =
      (addedState mOk cOk d vp op now st t a y c, .ok (docHash t a y)) := by
  unfold addDocument
  rw [ht, ha, hy, hc]
  cases mOk <;> cases cOk <;>
    simp [addedState, saveMetadata, saveCategories, fullRecord]

/-! ## Claim C2 — the document-id hash -/

/-- Claim C2 counterexample.  The id is the SHA-256 of
`f"{title}_{author}_{year}"`; the separator is not escaped, so the two
distinct triples `("a_b", "c", "2020")` and `("a", "b_c", "2020")` hash the
very same preimage string `"a_b_c_2020"` and receive the same id with
certainty — refuting "different triples yield different ids with
overwhelming probability". -/
theorem C2_counterexample :
    (Val.vStr "a_b", Val.vStr "c", Val.vStr "2020") ≠
      (Val.vStr "a", Val.vStr "b_c", Val.vStr "2020") ∧
    docHash (.vStr "a_b") (.vStr "c") (.vStr "2020") =
      docHash (.vStr "a") (.vStr "b_c") (.vStr "2020") := by
  refine ⟨by decide, ?_⟩
  have h : hashedPreimage (.vStr "a_b") (.vStr "c") (.vStr "2020") =
      hashedPreimage (.vStr "a") (.vStr "b_c") (.vStr "2020") := by decide
  unfold docHash
  rw [h]

/-- Claim C2 (amended): the id is a pure function of the stringified
`(title, author, year)` triple — equal string forms give equal ids — and
changing exactly one field (with the other two fixed) always changes the
hashed preimage string; distinct ids then follow from SHA-256 collision
resistance, which is outside the model.  (Unrestricted injectivity over
triples fails, see the counterexample: the `"_"` separator is not escaped.) -/
theorem C2_theorem :
    (∀ t a y t' a' y' : Val, pyStr t = pyStr t' → pyStr a = pyStr a' → pyStr y = pyStr y' →
      docHash t a y = docHash t' a' y') ∧
    (∀ t t' a y : Val, hashedPreimage t a y = hashedPreimage t' a y → pyStr t = pyStr t') ∧
    (∀ t a a' y : Val, hashedPreimage t a y = hashedPreimage t a' y → pyStr a = pyStr a') ∧
    (∀ t a y y' : Val, hashedPreimage t a y = hashedPreimage t a y' → pyStr y = pyStr y') := by
  refine ⟨?_, ?_, ?_, ?_⟩
  · intro t a y t' a' y' h1 h2 h3
    unfold docHash hashedPreimage
    rw [h1, h2, h3]
  · intro t t' a y h
    have hd := congrArg String.data h
    simp only [hashedPreimage, String.data_append] at hd
    have h1 := List.append_cancel_right hd
    have h2 := List.append_cancel_right h1
    have h3 := List.append_cancel_right h2
    exact String.ext (List.append_cancel_right h3)
  · intro t a a' y h
    have hd := congrArg String.data h
    simp only [hashedPreimage, String.data_append] at hd
    have h1 := List.append_cancel_right hd
    have h2 := List.append_cancel_right h1
    exact String.ext (List.append_cancel_left h2)
  · intro t a y y' h
    have hd := congrArg String.data h
    simp only [hashedPreimage, String.data_append] at hd
    exact String.ext (List.append_cancel_left hd)

/-- Closed witness for `C2_theorem` at concrete inputs. -/
theorem C2_witness :
    docHash (.vStr "T") (.vInt 5) (.vInt 2020) =
      docHash (.vStr "T") (.vStr "5") (.vStr "2020") ∧
    pyStr (Val.vStr "Calc I") = pyStr (Val.vStr "Calc I") :=
  ⟨ C2_theorem.1 (.vStr "T") (.vInt 5) (.vInt 2020) (.vStr "T") (.vStr "5") (.vStr "2020")
      rfl rfl rfl,
   C2_theorem.2.1 (.vStr "Calc I") (.vStr "Calc I") (.vStr "Rivas") (.vInt 2020) rfl⟩

/-! ## Concrete fixtures for closed witnesses and counterexamples -/

/-- A concrete, fully populated metadata draft. -/
def draft0 : Dict :=
  [("title", .vStr "Calc I"), ("author", .vStr "Rivas"), ("year", .vInt 2020),
   ("category", .vStr "Matemáticas"), ("tags", .vList [.vStr "calculo"]),
   ("description", .vStr "Curso de calculo"), ("language", .vStr "Español"),
   ("type", .vStr "Libro de Texto"), ("level", .vStr "Principiante")]

/-- A freshly initialised, empty registry state. -/
def st0 : DMState :=
  { metadata := [], categories := defaultCategories,
    metadataFile := .valid [], categoriesFile := .valid defaultCategories }

/-! ## Claim C1 — persistence failure during `add_document` -/

/-- Claim C1 counterexample.  With the metadata write failing
(`mOk = false`, i.e. the `open`/`json.dump` in `_save_metadata` raises),
`add_document` on an empty registry still returns `.ok` — no
`PersistenceError` reaches the caller — while the in-memory registry now
differs from its pre-insert state and `metadata.json` was not updated:
exactly the silent memory/disk divergence the claim rules out. -/
theorem C1_counterexample :
    (addDocument false true draft0 "v" "o" "2024-01-01T00:00:00" st0).2.isOk = true ∧
    (addDocument false true draft0 "v" "o" "2024-01-01T00:00:00" st0).1.metadata ≠
      st0.metadata ∧
    (addDocument false true draft0 "v" "o" "2024-01-01T00:00:00" st0).1.metadataFile =
      st0.metadataFile := by
  rw [addDocument_ok false true draft0 "v" "o" "2024-01-01T00:00:00" st0
    (.vStr "Calc I") (.vStr "Rivas") (.vInt 2020) (.vStr "Matemáticas")
    (by decide) (by decide) (by decide) (by decide)]
  refine ⟨rfl, ?_, rfl⟩
  simp [addedState, st0, insertA]

/-- Claim C1 (amended): when persisting the registry fails, the exception is
caught and only printed inside `_save_metadata`; `add_document`
nevertheless returns the computed id, the in-memory registry keeps the
inserted record, and `metadata.json` keeps its previous content — the
failure is silently dropped and the in-memory and on-disk states diverge
rather than being kept consistent. -/
theorem C1_theorem (cOk : Bool) (d : Dict) (vp op now : String) (st : DMState)
    (t a y c : Val)
    (ht : dictGet d "title" = some t) (ha : dictGet d "author" = some a)
    (hy : dictGet d "year" = some y) (hc : dictGet d "category" = some c) :
    (addDocument false cOk d vp op now st).2 = .ok (docHash t a y) ∧
    (addDocument false cOk d vp op now st).1.metadata =
      insertA st.metadata (docHash t a y) (fullRecord d (docHash t a y) vp op now) ∧
    (addDocument false cOk d vp op now st).1.metadataFile = st.metadataFile := by
  rw [addDocument_ok false cOk d vp op now st t a y c ht ha hy hc]
  exact ⟨rfl, rfl, rfl⟩

/-- Closed witness for `C1_theorem` on the concrete fixture. -/
theorem C1_witness :
    (addDocument false false draft0 "v" "o" "2024-01-01T00:00:00" st0).2 =
      .ok (docHash (.vStr "Calc I") (.vStr "Rivas") (.vInt 2020)) ∧
    (addDocument false false draft0 "v" "o" "2024-01-01T00:00:00" st0).1.metadata =
      insertA st0.metadata (docHash (.vStr "Calc I") (.vStr "Rivas") (.vInt 2020))
        (fullRecord draft0 (docHash (.vStr "Calc I") (.vStr "Rivas") (.vInt 2020))
          "v" "o" "2024-01-01T00:00:00") ∧
    (addDocument false false draft0 "v" "o" "2024-01-01T00:00:00" st0).1.metadataFile =
      st0.metadataFile :=
  C1_theorem false draft0 "v" "o" "2024-01-01T00:00:00" st0
    (.vStr "Calc I") (.vStr "Rivas") (.vInt 2020) (.vStr "Matemáticas")
    (by decide) (by decide) (by decide) (by decide)

/-! ## Claim C3 — insert followed by lookup -/

/-- Claim C3.  A successful `add_document` followed by `get_document` on the
returned id yields the stored record, and that record agrees with the
inserted draft on every key except exactly the four system-added fields
`hash`, `vectorstore_path`, `original_path` and `processed_date`, which
hold the computed id, the two artifact paths and the timestamp. -/
theorem C3_theorem (mOk cOk : Bool) (d : Dict) (vp op now : String) (st : DMState)
    (t a y c : Val)
    (ht : dictGet d "title" = some t) (ha : dictGet d "author" = some a)
    (hy : dictGet d "year" = some y) (hc : dictGet d "category" = some c) :
    (addDocument mOk cOk d vp op now st).2 = .ok (docHash t a y) ∧
    getDocument (addDocument mOk cOk d vp op now st).1 (docHash t a y) =
      some (fullRecord d (docHash t a y) vp op now) ∧
    (∀ k, dictGet (fullRecord d (docHash t a y) vp op now) k =
      if "processed_date" = k then some (.vStr now)
      else if "original_path" = k then some (.vStr op)
      else if "vectorstore_path" = k then some (.vStr vp)
      else if "hash" = k then some (.vStr (docHash t a y))
      else dictGet d k) := by
  rw [addDocument_ok mOk cOk d vp op now st t a y c ht ha hy hc]
  refine ⟨rfl, ?_, ?_⟩
  · simp [getDocument, addedState, lookupA_insertA_self]
  · intro k
    simp only [fullRecord, dictGet, dictSet, lookupA_insertA]

/-- Closed witness for `C3_theorem` on the concrete fixture. -/
theorem C3_witness :
    (addDocument true true draft0 "v" "o" "2024-01-01T00:00:00" st0).2 =
      .ok (docHash (.vStr "Calc I") (.vStr "Rivas") (.vInt 2020)) ∧
    getDocument (addDocument true true draft0 "v" "o" "2024-01-01T00:00:00" st0).1
        (docHash (.vStr "Calc I") (.vStr "Rivas") (.vInt 2020)) =
      some (fullRecord draft0 (docHash (.vStr "Calc I") (.vStr "Rivas") (.vInt 2020))
        "v" "o" "2024-01-01T00:00:00") ∧
    dictGet (fullRecord draft0 (docHash (.vStr "Calc I") (.vStr "Rivas") (.vInt 2020))
        "v" "o" "2024-01-01T00:00:00") "author" = dictGet draft0 "author" := by
  have h := C3_theorem true true draft0 "v" "o" "2024-01-01T00:00:00" st0
    (.vStr "Calc I") (.vStr "Rivas") (.vInt 2020) (.vStr "Matemáticas")
    (by decide) (by decide) (by decide) (by decide)
  refine ⟨h.1, h.2.1, ?_⟩
  have h3 := h.2.2 "author"
  simpa using h3

/-! ## Claim C8 — loading the persisted stores never fails -/

/-- Claim C8.  For any on-disk state in which the backing file is absent or
holds malformed JSON, `_load_categories` writes and returns the hardcoded
default taxonomy and `_load_metadata` writes and returns an empty mapping;
neither propagates an error (both loaders are total functions of the file
state).  Startup therefore survives a corrupt store file. -/
theorem C8_theorem (f : JFile Categories) (g : JFile (List (String × Dict)))
    (hf : f = .absent ∨ f = .malformed) (hg : g = .absent ∨ g = .malformed) :
    loadCategories true f = (defaultCategories, .valid defaultCategories) ∧
    loadMetadata true g = ([], .valid []) := by
  rcases hf with hf | hf <;> rcases hg with hg | hg <;> subst hf <;> subst hg <;>
    exact ⟨rfl, rfl⟩

/-- Closed witness for `C8_theorem`: an absent categories file together
with a malformed metadata file. -/
theorem C8_witness :
    loadCategories true .absent = (defaultCategories, .valid defaultCategories) ∧
    loadMetadata true (JFile.malformed) = ([], .valid []) :=
  C8_theorem .absent .malformed (Or.inl rfl) (Or.inr rfl)

/-! ## Claim C7 — agent resolution skips dead references -/

/-- Claim C7.  A stored document reference whose record is absent from the
registry (or falsy) or whose stored index path no longer exists is skipped
by the resolution loop without raising; and for an agent id present in the
registry all of whose references are skipped, `load_agent_config` still
returns a configuration (not `None`) whose resolved vectorstore list is
empty. -/
theorem C7_theorem (agents : List (String × Agent)) (agentId : String) (a : Agent)
    (dm : DMState) (disk : List String)
    (hA : lookupA agents agentId = some a) :
    (∀ (ref : DocRef) (rest : List DocRef) (k : Int),
      refSkipped dm disk ref = true →
      resolveDocs dm disk k (ref :: rest) = resolveDocs dm disk k rest) ∧
    ((∀ ref ∈ a.docs, refSkipped dm disk ref = true) →
      loadAgentConfig agents agentId dm disk = some { agent := a, vectorstores := [] }) := by
  have hskip : ∀ (ref : DocRef) (rest : List DocRef) (k : Int),
      refSkipped dm disk ref = true →
      resolveDocs dm disk k (ref :: rest) = resolveDocs dm disk k rest := by
    intro ref rest k hs
    unfold refSkipped at hs
    rcases hd : getDocument dm ref.hash with _ | d
    · simp [resolveDocs, hd]
    · rw [hd] at hs
      cases d with
      | nil => simp [resolveDocs, hd]
      | cons p ds =>
          simp only [List.isEmpty_cons, Bool.false_or] at hs
          rcases hp : (dictGet (p :: ds) "vectorstore_path").getD (.vStr "") with s | n | l
          · rw [hp] at hs
            simp only [Bool.not_eq_true'] at hs
            simp [resolveDocs, hd, hp, hs]
          · simp [resolveDocs, hd, hp]
          · rw [hp] at hs
            simp at hs
  refine ⟨hskip, ?_⟩
  intro hall
  have hres : ∀ refs : List DocRef, (∀ ref ∈ refs, refSkipped dm disk ref = true) →
      resolveDocs dm disk a.context_window refs = .ok [] := by
    intro refs
    induction refs with
    | nil => intro _; rfl
    | cons ref rest ih =>
        intro h
        rw [hskip ref rest a.context_window (h ref (by simp))]
        exact ih (fun r hr => h r (by simp [hr]))
  unfold loadAgentConfig
  rw [hA]
  dsimp only
  rw [hres a.docs hall]

/-- Closed witness for `C7_theorem`: an agent whose two references point at
a missing record and at a record whose index directory is gone. -/
theorem C7_witness :
    loadAgentConfig
      [("agent_20240101_000000",
        { name := "Tutor", role := "Tutor Personal", style := "Balanceado",
          detail_level := "Moderado", temperature := 7/10, max_tokens := 2048,
          context_window := 5,
          docs := [{ title := "Gone", hash := "deadbeef" }, { title := "Calc I", hash := "h1" }],
          created_at := "2024-01-01T00:00:00" })]
      "agent_20240101_000000"
      { metadata := [("h1", [("title", .vStr "Calc I"), ("vectorstore_path", .vStr "data/processed_docs/CalcI")])],
        categories := defaultCategories, metadataFile := .valid [],
        categoriesFile := .valid defaultCategories }
      ["data/processed_docs/Other"] =
      some { agent :=
        { name := "Tutor", role := "Tutor Personal", style := "Balanceado",
          detail_level := "Moderado", temperature := 7/10, max_tokens := 2048,
          context_window := 5,
          docs := [{ title := "Gone", hash := "deadbeef" }, { title := "Calc I", hash := "h1" }],
          created_at := "2024-01-01T00:00:00" }, vectorstores := [] } := by
  apply ( C7_theorem _ _ _ _ _ (by rfl)).2
  intro ref hr
  fin_cases hr <;> decide

/-! ## Claims C5 and C10 — category counters -/

/-- One `add_document` call: the draft and the three remaining arguments
(`datetime.now()` made explicit). -/
structure AddCall where
  draft : Dict
  vectorstorePath : String
  originalPath : String
  stamp : String

/-- A sequence of `add_document` calls with both file writes succeeding. -/
def runAdds : List AddCall → DMState → DMState
  | [], st => st
  | call :: rest, st =>
      runAdds rest
        (addDocument true true call.draft call.vectorstorePath call.originalPath call.stamp st).1

/-- The draft keys whose absence would make `add_document` raise before
touching the counters. -/
def draftHasKeys (d : Dict) : Prop :=
  (∃ t, dictGet d "title" = some t) ∧ (∃ a, dictGet d "author" = some a) ∧
  (∃ y, dictGet d "year" = some y)

theorem counts_le_insert (counts : List (Val × Int)) (cat c0 : Val) :
    (lookupA counts c0).getD 0 ≤
    (lookupA (insertA counts cat ((lookupA counts cat).getD 0 + 1)) c0).getD 0 := by
  by_cases h : cat = c0
  · subst h
    rw [lookupA_insertA_self]
    simp only [Option.getD_some]
    omega
  · rw [lookupA_insertA_ne _ _ _ _ h]

/-- No path through `add_document` (any flags, any draft) lowers any
category counter. -/
theorem addDocument_counts_mono (mOk cOk : Bool) (d : Dict) (vp op now : String)
    (st : DMState) (c0 : Val) :
    (lookupA st.categories.category_counts c0).getD 0 ≤
    (lookupA (addDocument mOk cOk d vp op now st).1.categories.category_counts c0).getD 0 := by
  unfold addDocument
  cases h1 : dictGet d "title" with
  | none => simp
  | some t =>
    cases h2 : dictGet d "author" with
    | none => simp
    | some a =>
      cases h3 : dictGet d "year" with
      | none => simp
      | some y =>
        cases h4 : dictGet d "category" with
        | none => cases mOk <;> simp [saveMetadata]
        | some cat =>
            cases mOk <;> cases cOk <;>
              simpa [saveMetadata, saveCategories] using
                counts_le_insert st.categories.category_counts cat c0

/-- Claim C5.  (i) `N` successful insertions whose drafts all carry category
`c` raise `category_counts[c]` from its pre-call value to pre + `N`,
creating the key (from the implicit zero) if absent; (ii) after a
successful insertion with both writes succeeding, `categories.json` holds
exactly the new in-memory taxonomy (every mutation is flushed by a
whole-file overwrite); (iii) no `add_document` call ever decrements any
counter. -/
theorem C5_theorem (c : Val) (calls : List AddCall) (st : DMState)
    (h : ∀ call ∈ calls, draftHasKeys call.draft ∧ dictGet call.draft "category" = some c) :
    ((lookupA (runAdds calls st).categories.category_counts c).getD 0 =
      (lookupA st.categories.category_counts c).getD 0 + calls.length) ∧
    (∀ (d : Dict) (vp op now : String) (st' : DMState) (t a y cc : Val),
      dictGet d "title" = some t → dictGet d "author" = some a →
      dictGet d "year" = some y → dictGet d "category" = some cc →
      (addDocument true true d vp op now st').1.categoriesFile =
        .valid (addDocument true true d vp op now st').1.categories) ∧
    (∀ (mOk cOk : Bool) (d : Dict) (vp op now : String) (st' : DMState) (c0 : Val),
      (lookupA st'.categories.category_counts c0).getD 0 ≤
      (lookupA (addDocument mOk cOk d vp op now st').1.categories.category_counts c0).getD 0) := by
  refine ⟨?_, ?_, ?_⟩
  · induction calls generalizing st with
    | nil => simp [runAdds]
    | cons call rest ih =>
        obtain ⟨⟨⟨t, ht⟩, ⟨a, ha⟩, ⟨y, hy⟩⟩, hc⟩ := h call (by simp)
        simp only [runAdds]
        rw [addDocument_ok true true call.draft call.vectorstorePath call.originalPath
          call.stamp st t a y c ht ha hy hc]
        rw [ih _ (fun q hq => h q (by simp [hq]))]
        simp only [addedState, lookupA_insertA_self, Option.getD_some, List.length_cons]
        omega
  · intro d vp op now st' t a y cc ht ha hy hc
    rw [addDocument_ok true true d vp op now st' t a y cc ht ha hy hc]
    simp [addedState]
  · exact addDocument_counts_mono

/-- The concrete call used by the closed witnesses. -/
def call0 : AddCall :=
  { draft := draft0, vectorstorePath := "v", originalPath := "o",
    stamp := "2024-01-01T00:00:00" }

/-- Closed witness for `C5_theorem`: one insertion on the empty registry. -/
theorem C5_witness :
    ((lookupA (runAdds [call0] st0).categories.category_counts (.vStr "Matemáticas")).getD 0 =
      (lookupA st0.categories.category_counts (.vStr "Matemáticas")).getD 0 + 1) ∧
    ((addDocument true true draft0 "v" "o" "2024-01-01T00:00:00" st0).1.categoriesFile =
      .valid (addDocument true true draft0 "v" "o" "2024-01-01T00:00:00" st0).1.categories) ∧
    ((lookupA st0.categories.category_counts (.vStr "Historia")).getD 0 ≤
      (lookupA (addDocument false false [] "v" "o" "n" st0).1.categories.category_counts
        (.vStr "Historia")).getD 0) := by
  have h := C5_theorem (.vStr "Matemáticas") [call0] st0
    (by
      intro call hc
      simp only [List.mem_singleton] at hc
      subst hc
      exact ⟨⟨⟨.vStr "Calc I", by decide⟩, ⟨.vStr "Rivas", by decide⟩,
        ⟨.vInt 2020, by decide⟩⟩, by decide⟩)
  exact ⟨h.1, h.2.1 draft0 "v" "o" "2024-01-01T00:00:00" st0 (.vStr "Calc I") (.vStr "Rivas")
    (.vInt 2020) (.vStr "Matemáticas") (by decide) (by decide) (by decide) (by decide),
    h.2.2 false false [] "v" "o" "n" st0 (.vStr "Historia")⟩

/-- Claim C10.  (i) After any sequence of successful insertions,
`category_counts[c]` grew by the number of *calls* whose draft carried
category `c` — not by the number of distinct stored records; (ii) on the
concrete double insertion of one identical draft, the registry holds a
single record in that category while the counter reads 2 > 1. -/
theorem C10_theorem (c : Val) (calls : List AddCall) (st : DMState)
    (h : ∀ call ∈ calls, draftHasKeys call.draft ∧ (dictGet call.draft "category").isSome) :
    ((lookupA (runAdds calls st).categories.category_counts c).getD 0 =
      (lookupA st.categories.category_counts c).getD 0 +
        (calls.filter (fun call => decide (dictGet call.draft "category" = some c))).length) ∧
    ((getDocumentsByCategory (runAdds [call0, call0] st0) (.vStr "Matemáticas")).length = 1 ∧
      (lookupA (runAdds [call0, call0] st0).categories.category_counts
        (.vStr "Matemáticas")).getD 0 = 2) := by
  constructor
  · induction calls generalizing st with
    | nil => simp [runAdds]
    | cons call rest ih =>
        obtain ⟨⟨⟨t, ht⟩, ⟨a, ha⟩, ⟨y, hy⟩⟩, hc⟩ := h call (by simp)
        obtain ⟨cc, hcc⟩ := Option.isSome_iff_exists.mp hc
        simp only [runAdds]
        rw [addDocument_ok true true call.draft call.vectorstorePath call.originalPath
          call.stamp st t a y cc ht ha hy hcc]
        rw [ih _ (fun q hq => h q (by simp [hq]))]
        by_cases hceq : cc = c
        · subst hceq
          have hlen : (List.filter
                (fun call => decide (dictGet call.draft "category" = some cc))
                (call :: rest)).length =
              (List.filter
                (fun call => decide (dictGet call.draft "category" = some cc))
                rest).length + 1 := by
            simp [List.filter_cons, hcc]
          rw [hlen]
          simp only [addedState, lookupA_insertA_self, Option.getD_some]
          omega
        · simp only [addedState]
          rw [lookupA_insertA_ne _ _ _ _ hceq]
          simp only [List.filter_cons, hcc]
          rw [if_neg (by simp [hceq])]
  · have e1 := addDocument_ok true true draft0 "v" "o" "2024-01-01T00:00:00" st0
      (.vStr "Calc I") (.vStr "Rivas") (.vInt 2020) (.vStr "Matemáticas")
      (by decide) (by decide) (by decide) (by decide)
    simp only [runAdds, call0]
    rw [e1]
    have e2 := addDocument_ok true true draft0 "v" "o" "2024-01-01T00:00:00"
      (addedState true true draft0 "v" "o" "2024-01-01T00:00:00" st0
        (.vStr "Calc I") (.vStr "Rivas") (.vInt 2020) (.vStr "Matemáticas"))
      (.vStr "Calc I") (.vStr "Rivas") (.vInt 2020) (.vStr "Matemáticas")
      (by decide) (by decide) (by decide) (by decide)
    rw [e2]
    constructor
    · simp [getDocumentsByCategory, addedState, st0, defaultCategories, insertA, fullRecord,
        dictGet, dictSet, lookupA_insertA, draft0, lookupA]
    · simp [addedState, st0, defaultCategories, insertA, lookupA, lookupA_insertA_self]

/-- Closed witness for `C10_theorem`: the general count identity applied to
the one-call sequence on the empty registry. -/
theorem C10_witness :
    (lookupA (runAdds [call0] st0).categories.category_counts (.vStr "Historia")).getD 0 =
      (lookupA st0.categories.category_counts (.vStr "Historia")).getD 0 +
        (([call0]).filter
          (fun call => decide (dictGet call.draft "category" = some (.vStr "Historia")))).length :=
  ( C10_theorem (.vStr "Historia") [call0] st0
    (by
      intro call hc
      simp only [List.mem_singleton] at hc
      subst hc
      exact ⟨⟨⟨.vStr "Calc I", by decide⟩, ⟨.vStr "Rivas", by decide⟩,
        ⟨.vInt 2020, by decide⟩⟩, by decide⟩)).1

/-! ## Claim C4 — free-text search with no filters -/

/-- A record whose `tags` field, if present, is a list (the shape the
upload form always writes). -/
def tagsWF (d : Dict) : Bool :=
  match dictGet d "tags" with
  | none => true
  | some (.vList _) => true
  | some _ => false

/-- The tag list of a record; absent tags give the empty list. -/
def tagsOf (d : Dict) : List Val :=
  match (dictGet d "tags").getD (.vList []) with
  | .vList l => l
  | _ => []

/-- Claim-side matcher, written from the claim: the lowercased query is a
substring of the lowercased title, description, author, or any one tag. -/
def specQueryMatch (q : String) (d : Dict) : Bool :=
  strIn q.toLower (pyStr ((dictGet d "title").getD (.vStr ""))).toLower ||
  strIn q.toLower (pyStr ((dictGet d "description").getD (.vStr ""))).toLower ||
  strIn q.toLower (pyStr ((dictGet d "author").getD (.vStr ""))).toLower ||
  (tagsOf d).any (fun t => strIn q.toLower (pyStr t).toLower)

theorem docMatches_wf (q : String) (d : Dict) (h : tagsWF d = true) :
    docMatches q.toLower d = .ok (specQueryMatch q d) := by
  unfold tagsWF at h
  unfold docMatches searchFields specQueryMatch tagsOf
  cases hd : dictGet d "tags" with
  | none =>
      simp [hd, List.any_cons, Bool.or_assoc]
  | some v =>
      rw [hd] at h
      cases v with
      | vList l => simp [hd, List.any_append, List.any_cons, Bool.or_assoc]
      | vStr s => simp at h
      | vInt n => simp at h

theorem applyQuery_wf (q : String) (docs : List Dict)
    (h : ∀ d ∈ docs, tagsWF d = true) :
    applyQuery q.toLower docs = .ok (docs.filter (specQueryMatch q)) := by
  induction docs with
  | nil => rfl
  | cons d rest ih =>
      simp only [applyQuery]
      rw [docMatches_wf q d (h d (by simp))]
      rw [ih (fun e he => h e (by simp [he]))]
      simp only [List.filter_cons]
      cases hm : specQueryMatch q d <;> simp [hm, Bind.bind, Except.bind] <;> rfl

/-- Claim C4.  With no filters and a non-empty query, `search_documents`
returns exactly the records (in registry order) for which the lowercased
query occurs as a substring of the lowercased title, description, author,
or any one tag; in particular, if no record matches, the result is the
empty list.  (Records are assumed to carry list-shaped tags, as the upload
form guarantees; a scalar tags field would change the iteration.) -/
theorem C4_theorem (q : String) (st : DMState)
    (hq : q ≠ "")
    (hwf : ∀ d ∈ st.metadata.map (fun p => p.2), tagsWF d = true) :
    searchDocuments (some q) none st =
      .ok ((st.metadata.map (fun p => p.2)).filter (specQueryMatch q)) ∧
    ((∀ d ∈ st.metadata.map (fun p => p.2), specQueryMatch q d = false) →
      searchDocuments (some q) none st = .ok []) := by
  have hne : (q == "") = false := beq_eq_false_iff_ne.mpr hq
  have hmain : searchDocuments (some q) none st =
      .ok ((st.metadata.map (fun p => p.2)).filter (specQueryMatch q)) := by
    unfold searchDocuments
    simp only [hne, Bool.false_eq_true, if_false, Bind.bind, Except.bind, pure, Except.pure]
    exact applyQuery_wf q _ hwf
  refine ⟨hmain, fun hall => ?_⟩
  rw [hmain]
  have : (st.metadata.map (fun p => p.2)).filter (specQueryMatch q) = [] :=
    List.filter_eq_nil_iff.mpr (fun d hd => by simp [hall d hd])
  rw [this]

/-- A one-record registry used by the search witnesses. -/
def stSearch : DMState :=
  { metadata := [("h1", fullRecord draft0 "h1" "v" "o" "2024-01-01T00:00:00")],
    categories := defaultCategories,
    metadataFile := .valid [("h1", fullRecord draft0 "h1" "v" "o" "2024-01-01T00:00:00")],
    categoriesFile := .valid defaultCategories }

/-- Closed witness for `C4_theorem`: searching the one-record registry. -/
theorem C4_witness :
    searchDocuments (some "calc") none stSearch =
      .ok ((stSearch.metadata.map (fun p => p.2)).filter (specQueryMatch "calc")) :=
  ( C4_theorem "calc" stSearch (by decide) (by decide)).1

/-! ## Claim C9 — the `year_range` filter -/

theorem applyYearRange_err (a b : Int) (docs : List Dict)
    (h : ∃ d ∈ docs, (pyToInt ((dictGet d "year").getD (.vInt 0))).isOk = false) :
    (applyYearRange a b docs).isOk = false := by
  induction docs with
  | nil => simp at h
  | cons d rest ih =>
      obtain ⟨e, he, hbad⟩ := h
      rcases List.mem_cons.mp he with rfl | hmem
      · cases hp : pyToInt ((dictGet e "year").getD (.vInt 0)) with
        | ok n => rw [hp] at hbad; simp [Except.isOk, Except.toBool] at hbad
        | error msg => simp [applyYearRange, hp, Bind.bind, Except.bind, Except.isOk, Except.toBool]
      · cases hp : pyToInt ((dictGet d "year").getD (.vInt 0)) with
        | error msg => simp [applyYearRange, hp, Bind.bind, Except.bind, Except.isOk, Except.toBool]
        | ok n =>
            have htail := ih ⟨e, hmem, hbad⟩
            cases hr : applyYearRange a b rest with
            | ok res => rw [hr] at htail; simp [Except.isOk, Except.toBool] at htail
            | error msg =>
                simp [applyYearRange, hp, hr, Bind.bind, Except.bind, Except.isOk, Except.toBool]

theorem applyYearRange_total (a b : Int) (docs : List Dict)
    (h : ∀ d ∈ docs, (pyToInt ((dictGet d "year").getD (.vInt 0))).isOk = true) :
    (applyYearRange a b docs).isOk = true := by
  induction docs with
  | nil => rfl
  | cons d rest ih =>
      have hd := h d (by simp)
      cases hp : pyToInt ((dictGet d "year").getD (.vInt 0)) with
      | error msg => rw [hp] at hd; simp [Except.isOk, Except.toBool] at hd
      | ok n =>
          have htail := ih (fun e he => h e (by simp [he]))
          cases hr : applyYearRange a b rest with
          | error msg => rw [hr] at htail; simp [Except.isOk, Except.toBool] at htail
          | ok res =>
              simp only [applyYearRange, hp, hr, Bind.bind, Except.bind]
              split <;> rfl

theorem applyYearRange_ok_mem (a b : Int) (docs : List Dict) :
    ∀ res : List Dict, applyYearRange a b docs = .ok res →
    ∀ e ∈ res, e ∈ docs ∧
      ∃ n, pyToInt ((dictGet e "year").getD (.vInt 0)) = .ok n ∧ a ≤ n ∧ n ≤ b := by
  induction docs with
  | nil =>
      intro res hres e he
      simp only [applyYearRange] at hres
      injection hres with hres
      subst hres
      simp at he
  | cons d rest ih =>
      intro res hres e he
      simp only [applyYearRange] at hres
      cases hp : pyToInt ((dictGet d "year").getD (.vInt 0)) with
      | error msg =>
          rw [hp] at hres
          simp [Bind.bind, Except.bind] at hres
      | ok n =>
          rw [hp] at hres
          cases hr : applyYearRange a b rest with
          | error msg =>
              rw [hr] at hres
              simp [Bind.bind, Except.bind] at hres
          | ok tailres =>
              rw [hr] at hres
              simp only [Bind.bind, Except.bind, pure, Except.pure] at hres
              injection hres with hres
              subst hres
              by_cases hcond : a ≤ n ∧ n ≤ b
              · rw [if_pos hcond] at he
                rcases List.mem_cons.mp he with rfl | hmem
                · exact ⟨by simp, n, hp, hcond⟩
                · obtain ⟨hmem2, hex⟩ := ih tailres hr e hmem
                  exact ⟨by simp [hmem2], hex⟩
              · rw [if_neg hcond] at he
                obtain ⟨hmem2, hex⟩ := ih tailres hr e he
                exact ⟨by simp [hmem2], hex⟩

/-- Calling `search_documents` with only a year-range filter is exactly the
year-range comprehension over the registry values. -/
theorem searchDocuments_yearRange (a b : Int) (st : DMState) :
    searchDocuments none (some [("year_range", .fRange a b)]) st =
      applyYearRange a b (st.metadata.map (fun p => p.2)) := by
  unfold searchDocuments applyFilters applyOneFilter
  simp only [filterTruthy, isSentinel, Bool.and_eq_true, Bool.not_eq_true]
  cases hr : applyYearRange a b (st.metadata.map (fun p => p.2)) <;>
    simp [hr, Bind.bind, Except.bind, pure, Except.pure, applyFilters]

/-- Claim C9.  With a `year_range` filter: (i) one record whose year value
does not convert to an int (e.g. a non-numeric string) makes the whole
call raise; (ii) if the year of every record converts, the call succeeds;
(iii) a record with no `year` field is treated as year `0`, hence excluded
from any result whose range has a positive lower bound. -/
theorem C9_theorem (a b : Int) (st : DMState) :
    ((∃ d ∈ st.metadata.map (fun p => p.2),
        (pyToInt ((dictGet d "year").getD (.vInt 0))).isOk = false) →
      (searchDocuments none (some [("year_range", .fRange a b)]) st).isOk = false) ∧
    ((∀ d ∈ st.metadata.map (fun p => p.2),
        (pyToInt ((dictGet d "year").getD (.vInt 0))).isOk = true) →
      (searchDocuments none (some [("year_range", .fRange a b)]) st).isOk = true) ∧
    (∀ (d : Dict) (res : List Dict), 1 ≤ a → dictGet d "year" = none →
      searchDocuments none (some [("year_range", .fRange a b)]) st = .ok res →
      d ∉ res) := by
  refine ⟨?_, ?_, ?_⟩
  · intro h
    rw [searchDocuments_yearRange]
    exact applyYearRange_err a b _ h
  · intro h
    rw [searchDocuments_yearRange]
    exact applyYearRange_total a b _ h
  · intro d res ha hy hres
    rw [searchDocuments_yearRange] at hres
    intro hd
    obtain ⟨-, n, hn, hna, -⟩ := applyYearRange_ok_mem a b _ res hres d hd
    rw [hy] at hn
    simp only [Option.getD_none, pyToInt] at hn
    injection hn with hn
    omega

/-- A registry holding one record whose year is the non-numeric string
`"MMXX"`. -/
def stBadYear : DMState :=
  { metadata := [("h1", [("title", .vStr "Old"), ("year", .vStr "MMXX")])],
    categories := defaultCategories, metadataFile := .valid [],
    categoriesFile := .valid defaultCategories }

/-- A registry holding one record with no year field at all. -/
def stNoYear : DMState :=
  { metadata := [("h1", [("title", .vStr "Undated")])],
    categories := defaultCategories, metadataFile := .valid [],
    categoriesFile := .valid defaultCategories }

/-- Closed witness for `C9_theorem`: the non-numeric year makes the search
raise, and the record without a year is excluded from a 1900–2024 search. -/
theorem C9_witness :
    (searchDocuments none (some [("year_range", .fRange 1900 2024)]) stBadYear).isOk = false ∧
    [("title", Val.vStr "Undated")] ∉ ([] : List Dict) :=
  ⟨( C9_theorem 1900 2024 stBadYear).1
      ⟨[("title", .vStr "Old"), ("year", .vStr "MMXX")], by decide, by decide⟩,
   ( C9_theorem 1900 2024 stNoYear).2.2 [("title", .vStr "Undated")] []
      (by norm_num) (by decide) (by rfl)⟩

/-! ## Claim C6 — `get_popular_categories` -/

theorem countsLe_trans (p q r : Val × Int) :
    (fun p q : Val × Int => decide (q.2 ≤ p.2)) p q = true →
    (fun p q : Val × Int => decide (q.2 ≤ p.2)) q r = true →
    (fun p q : Val × Int => decide (q.2 ≤ p.2)) p r = true := by
  simp only [decide_eq_true_eq]
  omega

theorem countsLe_total (p q : Val × Int) :
    ((fun p q : Val × Int => decide (q.2 ≤ p.2)) p q ||
      (fun p q : Val × Int => decide (q.2 ≤ p.2)) q p) = true := by
  simp only [Bool.or_eq_true, decide_eq_true_eq]
  omega

/-- A counter table with nine categories. -/
def st9 : DMState :=
  { metadata := [],
    categories :=
      { categories := [],
        category_counts :=
          [(.vStr "c1", 9), (.vStr "c2", 8), (.vStr "c3", 7), (.vStr "c4", 6),
           (.vStr "c5", 5), (.vStr "c6", 4), (.vStr "c7", 3), (.vStr "c8", 2),
           (.vStr "c9", 1)] },
    metadataFile := .valid [], categoriesFile := .valid defaultCategories }

/-- Claim C6 counterexample.  `get_popular_categories` accepts no limit
argument: the cutoff is hardcoded to 8.  On a table of nine categories it
returns exactly 8 entries, so for the requested limit `k = 7` the result
has more than `k` entries — the claimed "for every requested limit k, at
most k entries" fails. -/
theorem C6_counterexample :
    (getPopularCategories st9).length = 8 ∧
    ¬((getPopularCategories st9).length ≤ 7) := by
  have h : (getPopularCategories st9).length = 8 := by
    unfold getPopularCategories
    rw [List.length_take, List.length_mergeSort]
    rfl
  exact ⟨h, by omega⟩

/-- Claim C6 (amended): `get_popular_categories` takes no limit parameter;
it always returns at most 8 entries — the pairs of the counter table,
sorted by count descending, with equal counts kept in their original
(insertion) order, truncated to the first 8.  As a pure function of the
table it is trivially reproducible across repeated calls.  Formally:
(i) at most 8 entries; (ii) counts are pairwise descending; (iii) for each
count value, the returned entries with that count are a prefix of the
table entries with that count, in table order (stability); (iv) the result
is a sub-permutation of the table. -/
theorem C6_theorem (st : DMState) :
    ((getPopularCategories st).length ≤ 8) ∧
    List.Pairwise (fun p q : Val × Int => q.2 ≤ p.2) (getPopularCategories st) ∧
    (∀ v : Int,
      (getPopularCategories st).filter (fun p => decide (p.2 = v)) <+:
        (st.categories.category_counts).filter (fun p => decide (p.2 = v))) ∧
    List.Subperm (getPopularCategories st) st.categories.category_counts := by
  refine ⟨?_, ?_, ?_, ?_⟩
  · unfold getPopularCategories
    rw [List.length_take]
    omega
  · have hs := List.sorted_mergeSort countsLe_trans countsLe_total
      st.categories.category_counts
    have hp : List.Pairwise (fun p q : Val × Int => q.2 ≤ p.2)
        ((st.categories.category_counts).mergeSort (fun p q => decide (q.2 ≤ p.2))) :=
      hs.imp (fun h => by simpa using h)
    exact hp.sublist (List.take_sublist 8 _)
  · intro v
    set counts := st.categories.category_counts with hc
    set sorted := counts.mergeSort (fun p q : Val × Int => decide (q.2 ≤ p.2)) with hsorted
    have hLpair : List.Pairwise
        (fun p q : Val × Int => (fun p q : Val × Int => decide (q.2 ≤ p.2)) p q = true)
        (counts.filter (fun p => decide (p.2 = v))) := by
      apply List.pairwise_of_forall_mem_list
      intro p hp q hq
      have hpv := List.of_mem_filter hp
      have hqv := List.of_mem_filter hq
      simp only [decide_eq_true_eq] at hpv hqv ⊢
      omega
    have h1 : (counts.filter (fun p => decide (p.2 = v))).Sublist sorted :=
      List.sublist_mergeSort countsLe_trans countsLe_total hLpair
        (List.filter_sublist counts)
    have h2 : (sorted.filter (fun p => decide (p.2 = v))).Perm
        (counts.filter (fun p => decide (p.2 = v))) :=
      (List.mergeSort_perm counts _).filter _
    have h3 : (counts.filter (fun p => decide (p.2 = v))).Sublist
        (sorted.filter (fun p => decide (p.2 = v))) := by
      have hf := h1.filter (fun p : Val × Int => decide (p.2 = v))
      have heq : (counts.filter (fun p : Val × Int => decide (p.2 = v))).filter
          (fun p : Val × Int => decide (p.2 = v)) =
          counts.filter (fun p : Val × Int => decide (p.2 = v)) := by
        apply List.filter_eq_self.mpr
        intro q hq
        exact (List.mem_filter.mp hq).2
      rwa [heq] at hf

    have h4 : counts.filter (fun p => decide (p.2 = v)) =
        sorted.filter (fun p => decide (p.2 = v)) :=
      h3.eq_of_length (h2.length_eq.symm)
    have hpre := List.take_prefix 8 sorted
    have h5 : (sorted.take 8).filter (fun p => decide (p.2 = v)) <+:
        sorted.filter (fun p => decide (p.2 = v)) :=
      hpre.filter _
    rw [← h4] at h5
    exact h5
  · exact ((List.take_sublist 8 _).subperm).trans
      (List.mergeSort_perm st.categories.category_counts _).subperm

end Yachani
